import Mathlib

/-!
Verification of the subtitle-timed transcript pipeline implemented in
"MultiMedia/Youtube Video Transcriber_2.py".

The Python source is shallowly embedded as executable Lean definitions:

* pure string/number functions (get_video_id, format_time, create_srt_content,
  the per-segment context computation) are translated directly;
* Python floats are modeled as exact rationals together with an explicit
  IEEE-754 binary64 rounding function (toDouble); the only inexact float
  operations in format_time are the decimal-literal-to-double conversion of
  its argument and the final multiplication by 1000 (float remainders with
  fmod semantics and floor divisions in the relevant range are exact and are
  therefore modeled by exact rational arithmetic);
* effectful calls (caption provider, downloader subprocess, OpenAI speech and
  translation endpoints, file writes) are modeled by environments that supply
  each call's outcome as an Except value, and the orchestrator
  process_transcription is a function from such an environment to a record of
  its observable behavior (audio-path invocations, cleanup actions, final
  audio-file existence, failure flag).

Rational arithmetic in definitions that must evaluate inside the kernel is
performed on numerators and denominators via mkRat, because the Rat field
operations do not reduce there.
-/

/-! ## Python whitespace primitives (str.split, str.strip, str.join) -/

/-- Characters treated as whitespace by Python str.split and str.strip
(ASCII subset; exotic Unicode whitespace is not modeled). -/
def pyIsSpace (c : Char) : Bool :=
  decide (c = ' ' ∨ c = '\t' ∨ c = '\n' ∨ c = '\r' ∨ c = '\x0b' ∨ c = '\x0c')

/-- Accumulator-based splitter: Python str.split() with no separator, which
splits on runs of whitespace and drops empty pieces.  The accumulator holds
the current token reversed. -/
def splitWsAux : List Char → List Char → List (List Char)
  | [], acc => if acc = [] then [] else [acc.reverse]
  | c :: rest, acc =>
    if pyIsSpace c then
      (if acc = [] then splitWsAux rest [] else acc.reverse :: splitWsAux rest [])
    else splitWsAux rest (c :: acc)

/-- Python " ".join over a token list (tokens as character lists). -/
def joinTok : List (List Char) → List Char
  | [] => []
  | [t] => t
  | t :: t2 :: r => t ++ ' ' :: joinTok (t2 :: r)

/-- Python str.strip(): drop leading and trailing whitespace. -/
def pyStrip (s : String) : String :=
  String.mk (((s.data.dropWhile pyIsSpace).reverse.dropWhile pyIsSpace).reverse)

/-- Python sep.join(parts) for strings: empty for no parts, otherwise the
parts interleaved with the separator. -/
def joinSepS (sep : String) : List String → String
  | [] => ""
  | [x] => x
  | x :: y :: r => x ++ sep ++ joinSepS sep (y :: r)

/-- Scanner for the normalized-whitespace shape produced by
" ".join(s.split()): every whitespace character is a single ' ' standing
between two non-space characters.  The flag records whether the previous
position was a space (or the start of the string, which bans a leading
space). -/
def wsScan : Bool → List Char → Bool
  | prevSpace, [] => !prevSpace
  | prevSpace, c :: r =>
    if pyIsSpace c then (!prevSpace) && (c == ' ') && wsScan true r
    else wsScan false r

/-- A character list is whitespace-normalized when it is empty or passes the
scan: no leading or trailing whitespace, no two adjacent whitespace
characters, and every whitespace character is a plain space. -/
def wsNormalizedB (l : List Char) : Bool :=
  match l with
  | [] => true
  | _ :: _ => wsScan true l

/-! ## Exact model of IEEE-754 binary64 rounding

toDouble rounds a rational to the nearest binary64 value (ties to even).
Overflow and subnormal underflow are outside the modeled domain (every float
arising in the source is a time in seconds, far inside the normal range), and
the fixed recursion fuel of the base-2 logarithm covers every magnitude that
can reach it. -/

/-- Fueled floor of log base 2 (Nat.log2 does not reduce in the kernel). -/
def myLog2 (fuel : Nat) (n : Nat) : Nat :=
  match fuel with
  | 0 => 0
  | f + 1 => if n ≥ 2 then myLog2 f (n / 2) + 1 else 0

/-- Round the fraction num/den (den positive) to the nearest natural number,
ties to even. -/
def rne (num den : Nat) : Nat :=
  let q := num / den
  let r := num % den
  if 2 * r < den then q
  else if den < 2 * r then q + 1
  else if q % 2 = 0 then q else q + 1

/-- Binary exponent of the positive fraction a/d: the e with 2^e ≤ a/d < 2^(e+1). -/
def dblExp (a d : Nat) : Int :=
  let e0 : Int := (myLog2 320 a : Int) - (myLog2 320 d : Int)
  if 0 ≤ e0 then (if a < d * 2 ^ e0.toNat then e0 - 1 else e0)
  else (if a * 2 ^ (-e0).toNat < d then e0 - 1 else e0)

/-- Nearest binary64 value (as an exact rational) of the positive fraction
a/d: a 53-bit mantissa at the binary exponent of a/d, rounded ties-to-even. -/
def dblRound (a d : Nat) : ℚ :=
  let e := dblExp a d
  let s : Int := 52 - e
  if 0 ≤ s then mkRat (rne (a * 2 ^ s.toNat) d : Int) (2 ^ s.toNat)
  else mkRat ((rne a (d * 2 ^ (-s).toNat) : Int) * 2 ^ (-s).toNat) 1

/-- Nearest binary64 value of a rational, as an exact rational. -/
def toDouble (q : ℚ) : ℚ :=
  if q.num = 0 then 0
  else if 0 < q.num then dblRound q.num.natAbs q.den
  else -dblRound q.num.natAbs q.den

/-! ## Kernel-evaluable rational helpers -/

/-- Floor of q / k for a natural k (both Python float floor division and
int() of a nonnegative value agree with the exact floor on the domain used
by format_time). -/
def qfloorDiv (q : ℚ) (k : Nat) : Int := Int.fdiv q.num ((k : Int) * (q.den : Int))

/-- Python float remainder q % k for a positive natural k.  fmod of two
doubles is always exactly representable, so the exact rational remainder is
the faithful model. -/
def qmodNat (q : ℚ) (k : Nat) : ℚ :=
  mkRat (q.num - (k : Int) * (q.den : Int) * qfloorDiv q k) q.den

/-- Kernel-evaluable multiplication of a rational by a natural number. -/
def qscale (k : Nat) (q : ℚ) : ℚ := mkRat ((k : Int) * q.num) q.den

/-- Kernel-evaluable addition of two rationals. -/
def qadd (a b : ℚ) : ℚ :=
  mkRat (a.num * (b.den : Int) + b.num * (a.den : Int)) (a.den * b.den)

/-- Zero-padded decimal rendering, Python format spec 0wd for nonnegative
values. -/
def padNum (w n : Nat) : String :=
  let s := toString n
  if s.length < w then String.mk (List.replicate (w - s.length) '0') ++ s else s

/-! ## format_time (source lines 70-77)

Python:
  hours = int(seconds // 3600)
  minutes = int((seconds % 3600) // 60)
  seconds = seconds % 60
  milliseconds = int((seconds % 1) * 1000)
  seconds = int(seconds)
  return HH:MM:SS,mmm with 02d/02d/02d/03d padding

The remainders are exact (fmod), the floor divisions produce exact small
integers on this domain, and the single multiplication by 1000 is rounded to
binary64; int() truncates.  Negative times do not occur in the application
and the model addresses nonnegative inputs. -/

/-- Timestamp formatter of create_srt_content, over the exact rational value
of the Python float argument. -/
def format_time (seconds : ℚ) : String :=
  let hours := (qfloorDiv seconds 3600).toNat
  let minutes := (qfloorDiv (qmodNat seconds 3600) 60).toNat
  let s1 := qmodNat seconds 60
  let milliseconds := (qfloorDiv (toDouble (qscale 1000 (qmodNat s1 1))) 1).toNat
  let sec := (qfloorDiv s1 1).toNat
  padNum 2 hours ++ ":" ++ padNum 2 minutes ++ ":" ++ padNum 2 sec ++ "," ++ padNum 3 milliseconds

/-! ## Transcript entries and the SRT formatter (source lines 60-88) -/

/-- A transcript-entry dictionary as consumed by create_srt_content: the
text key is always present, the timing keys are optional and read with
dict.get defaults. -/
structure Entry where
  text : String
  start : Option ℚ
  duration : Option ℚ
  end_ : Option ℚ
deriving DecidableEq

/-- One SRT block without its trailing newline: index line, timestamp line,
text line. -/
def srtCore (i : Nat) (e : Entry) : String :=
  toString i ++ "\n" ++ format_time (e.start.getD 0) ++ " --> "
    ++ format_time (e.end_.getD (qadd (e.start.getD 0) (e.duration.getD 3))) ++ "\n" ++ e.text

/-- One SRT block of create_srt_content: start defaults to 0, duration to 3,
end to start + duration, per entry.get in the source. -/
def srtEntry (i : Nat) (e : Entry) : String :=
  srtCore i e ++ "\n"

/-- create_srt_content: blocks numbered from 1 (Python enumerate(entries, 1)),
joined with a single newline; each block already ends in a newline, so
consecutive entries are separated by a blank line. -/
def create_srt_content (entries : List Entry) : String :=
  joinSepS "\n" ((List.enumFrom 1 entries).map (fun p => srtEntry p.1 p.2))

/-! ## get_video_id (source lines 45-58)

The four regular expressions are embedded as dedicated matchers.  Pattern 1,
(?:v=|\/)([0-9A-Za-z_-]{11}).*, succeeds at a position where the string
continues with "v=" or "/" followed by eleven identifier characters (the
trailing .* always matches and does not affect the captured group; the two
alternatives begin with different characters, so the alternation order is
immaterial at any single position).  re.search scans start positions left to
right and returns the first successful one, which reSearch reproduces. -/

/-- Character class [0-9A-Za-z_-] of the video-id patterns. -/
def isIdChar (c : Char) : Bool :=
  decide (('0' ≤ c ∧ c ≤ '9') ∨ ('A' ≤ c ∧ c ≤ 'Z') ∨ ('a' ≤ c ∧ c ≤ 'z') ∨ c = '_' ∨ c = '-')

/-- Consume exactly n identifier characters, returning them and the rest. -/
def takeId : Nat → List Char → Option (List Char × List Char)
  | 0, rest => some ([], rest)
  | _ + 1, [] => none
  | n + 1, c :: rest =>
    if isIdChar c then
      match takeId n rest with
      | some (g, r) => some (c :: g, r)
      | none => none
    else none

/-- Match, at one position, a literal token followed by eleven identifier
characters, capturing the group of eleven. -/
def tokMatch (tok : List Char) (l : List Char) : Option (List Char) :=
  if l.take tok.length = tok then (takeId 11 (l.drop tok.length)).map Prod.fst else none

/-- Matcher of pattern 1 at one position: the alternation tries "v=" first
and backtracks to "/" (regex alternation at a fixed position), each followed
by eleven id chars. -/
def match1 (l : List Char) : Option (List Char) :=
  match tokMatch "v=".data l with
  | some g => some g
  | none => tokMatch "/".data l

/-- Matcher of pattern 2 at one position: "youtu.be/" then eleven id chars. -/
def match2 (l : List Char) : Option (List Char) :=
  tokMatch "youtu.be/".data l

/-- Matcher of pattern 3 at one position: "embed/" then eleven id chars. -/
def match3 (l : List Char) : Option (List Char) :=
  tokMatch "embed/".data l

/-- Matcher of pattern 4 at one position: "shorts/" then eleven id chars. -/
def match4 (l : List Char) : Option (List Char) :=
  tokMatch "shorts/".data l

/-- re.search: try the matcher at each start position from the left and
return the first captured group. -/
def reSearch (m : List Char → Option (List Char)) : List Char → Option (List Char)
  | [] => m []
  | c :: rest =>
    match m (c :: rest) with
    | some g => some g
    | none => reSearch m rest

/-- get_video_id: the patterns are tried in order and the first whose search
succeeds supplies the captured group; None when all four fail.  Pure string
function, no network access. -/
def get_video_id (url : String) : Option String :=
  match reSearch match1 url.data with
  | some g => some (String.mk g)
  | none =>
    match reSearch match2 url.data with
    | some g => some (String.mk g)
    | none =>
      match reSearch match3 url.data with
      | some g => some (String.mk g)
      | none =>
        match reSearch match4 url.data with
        | some g => some (String.mk g)
        | none => none

/-- Specification-side occurrence test: the string contains the literal
token immediately followed by eleven identifier characters somewhere. -/
def containsTokId (tok : List Char) (s : String) : Bool :=
  (reSearch (tokMatch tok) s.data).isSome

/-- Canonical watch URL around an id. -/
def watchURL (id : List Char) : String :=
  String.mk ("https://www.youtube.com/watch?v=".data ++ id)

/-- Short-link URL around an id. -/
def shortURL (id : List Char) : String :=
  String.mk ("https://youtu.be/".data ++ id)

/-- Embed URL around an id. -/
def embedURL (id : List Char) : String :=
  String.mk ("https://www.youtube.com/embed/".data ++ id)

/-- Shorts URL around an id. -/
def shortsURL (id : List Char) : String :=
  String.mk ("https://www.youtube.com/shorts/".data ++ id)

/-! ## translate_text (source lines 131-190)

The whole body sits in a try/except Exception block.  The key import and
client construction are abstracted into keyImport; the chat-completion call
into provider (the prompts feed only that call and do not reach the return
value).  A ValueError is raised for any target language other than 'fa'
before the provider is consulted; every exception is caught and rendered as
the sentinel "Translation failed: " followed by str(e).  A successful
response is stripped and whitespace-normalized via ' '.join(text.split()). -/

/-- translate_text over an environment supplying the key-import and provider
outcomes.  Total: every path returns a string. -/
def translate_text (keyImport : Except String Unit) (provider : Except String String)
    (text : String) (target_lang : String) (context : Option String) : String :=
  match keyImport with
  | .error e => "Translation failed: " ++ e
  | .ok _ =>
    if target_lang = "fa" then
      match provider with
      | .error e => "Translation failed: " ++ e
      | .ok content => String.mk (joinTok (splitWsAux (pyStrip content).data []))
    else "Translation failed: Unsupported target language: " ++ target_lang

/-! ## whisper_transcribe (source lines 193-235) -/

/-- One provider segment of the verbose_json response (the fields the source
reads, plus the id the mapping drops). -/
structure WhisperSeg where
  id : Nat
  start : ℚ
  end_ : ℚ
  text : String
deriving DecidableEq

/-- The verbose_json transcription response. -/
structure WhisperResp where
  text : String
  segments : List WhisperSeg
deriving DecidableEq

/-- Per-segment mapping of the source: keep text, start, end. -/
def segToEntry (s : WhisperSeg) : Entry :=
  { text := s.text, start := some s.start, duration := none, end_ := some s.end_ }

/-- Observable outcome of whisper_transcribe: the returned value or
propagated error, the number of provider attempts, and the number of
time.sleep(1) pauses. -/
structure WhisperOutcome where
  result : Except String (String × List Entry)
  attempts : Nat
  sleeps : Nat

/-- whisper_transcribe: failed key import raises at once; otherwise the
for-attempt-in-range(3) loop is unrolled: any exception on attempts 0 and 1
is followed by time.sleep(1) and a retry, the exception of attempt 2 is
re-raised, and a success returns the text with the segments mapped
one-to-one. -/
def whisper_transcribe (keyImport : Except String Unit)
    (attempt : Nat → Except String WhisperResp) : WhisperOutcome :=
  match keyImport with
  | .error _ =>
    { result := .error "OpenAI API key not found. Please create sk.py with your API key.",
      attempts := 0, sleeps := 0 }
  | .ok _ =>
    match attempt 0 with
    | .ok r => { result := .ok (r.text, r.segments.map segToEntry), attempts := 1, sleeps := 0 }
    | .error _ =>
      match attempt 1 with
      | .ok r => { result := .ok (r.text, r.segments.map segToEntry), attempts := 2, sleeps := 1 }
      | .error _ =>
        match attempt 2 with
        | .ok r => { result := .ok (r.text, r.segments.map segToEntry), attempts := 3, sleeps := 2 }
        | .error e => { result := .error e, attempts := 3, sleeps := 2 }

/-! ## Caption entries and the translation context (source lines 397-420) -/

/-- A caption entry as returned by the captions provider: text, start and
duration are always present (the provider's snippet shape), no end key. -/
structure CEntry where
  text : String
  start : ℚ
  duration : ℚ
deriving DecidableEq

/-- Context string for segment i: the slice
transcript_entries[max(0,i-2):min(N,i+3)] filtered by
transcript_entries.index(e) != i, texts joined with a space.  Python
list.index returns the first index of an equal element, which is what the
source compares against i. -/
def contextFor (entries : List CEntry) (i : Nat) : String :=
  joinSepS " "
    ((((entries.take (min entries.length (i + 3))).drop (i - 2)).filter
        (fun e => entries.indexOf e != i)).map (fun e => e.text))

/-- Specification-side context for segment i: the same window with the entry
at position i itself excluded (positions, not values, decide exclusion). -/
def specContext (entries : List CEntry) (i : Nat) : String :=
  joinSepS " "
    (((((List.enum entries).take (min entries.length (i + 3))).drop (i - 2)).filter
        (fun p => p.1 != i)).map (fun p => p.2.text))

/-! ## The orchestrator process_transcription (source lines 380-476)

All external effects are supplied by an environment.  The inner try block
covers the caption fetch chain (list_transcripts, find_transcript, fetch),
the per-segment translation loop (translate_text never raises), the GUI text
update (modeled as non-raising) and the subtitle save; its except clause is
the audio path: download_audio, whisper_transcribe, the save, with any
failure re-raised to the outer except.  The finally clause deletes the audio
file only when the audio_file variable was set, which happens exactly when
download_audio reported success; a failing os.remove is swallowed.  When the
download fails, failLeavesFile says whether the failed downloader run left a
partial audio_<videoId>.mp3 on disk. -/

/-- Environment of one process_transcription request. -/
structure OrchEnv where
  targetLanguage : String
  listT : Except String Unit
  findT : Except String Unit
  fetchT : Except String (List CEntry)
  transKey : Except String Unit
  transProvider : Nat → Except String String
  emitSubtitle : Bool
  saveCaption : Except String String
  downloadOk : Bool
  downloadMsg : String
  failLeavesFile : Bool
  whisperKey : Except String Unit
  whisperAttempt : Nat → Except String WhisperResp
  saveWhisper : Except String String
  removeOk : Bool

/-- Observable outcome of one request: how many times the audio path ran,
whether the finally clause attempted the delete, whether the transient audio
file exists afterwards, and whether the outer except was reached. -/
structure ProcResult where
  audioInvocations : Nat
  removeAttempted : Bool
  audioFileExists : Bool
  failed : Bool
deriving DecidableEq

/-- Translation loop of the Persian caption path: each entry is translated
with its context and repacked with text, start, duration (defaulted get) and
end (defaulted to start + duration).  Total, hence never triggers the audio
path. -/
def translatedEntries (env : OrchEnv) (entries : List CEntry) : List Entry :=
  (List.enum entries).map (fun p =>
    { text := translate_text env.transKey (env.transProvider p.1) p.2.text "fa"
        (some (contextFor entries p.1)),
      start := some p.2.start,
      duration := some p.2.duration,
      end_ := some (qadd p.2.start p.2.duration) })

/-- The inner try block of process_transcription: the caption fetch chain
followed by translation/display/save; its error is whatever exception
escapes the block. -/
def captionBlock (env : OrchEnv) : Except String Unit :=
  match env.listT with
  | .error e => .error e
  | .ok _ =>
    match env.findT with
    | .error e => .error e
    | .ok _ =>
      match env.fetchT with
      | .error e => .error e
      | .ok entries =>
        if env.targetLanguage = "Persian" then
          let _translated := translatedEntries env entries
          if env.emitSubtitle then
            match env.saveCaption with
            | .error e => .error e
            | .ok _ => .ok ()
          else .ok ()
        else
          if env.emitSubtitle then
            match env.saveCaption with
            | .error e => .error e
            | .ok _ => .ok ()
          else .ok ()

/-- Boolean characterization of when an exception escapes the inner caption
block: a failure in the fetch chain, or a subtitle-save failure when the
save is requested. -/
def isErr {ε α : Type} : Except ε α → Bool
  | .error _ => true
  | .ok _ => false

/-- captionBlockRaises: the compact trigger condition of the audio path. -/
def captionBlockRaises (env : OrchEnv) : Bool :=
  isErr env.listT || isErr env.findT || isErr env.fetchT
    || (env.emitSubtitle && isErr env.saveCaption)

/-- process_transcription: caption block first; on its exception the audio
path runs once (download, then whisper and save when the download reported
success, else the raised download failure); the finally clause attempts the
delete exactly when audio_file was set, i.e. when the download reported
success. -/
def process_transcription (env : OrchEnv) : ProcResult :=
  match captionBlock env with
  | .ok _ => { audioInvocations := 0, removeAttempted := false, audioFileExists := false, failed := false }
  | .error _ =>
    if env.downloadOk then
      { audioInvocations := 1,
        removeAttempted := true,
        audioFileExists := !env.removeOk,
        failed :=
          match (whisper_transcribe env.whisperKey env.whisperAttempt).result with
          | .ok _ =>
            (if env.emitSubtitle then
              (match env.saveWhisper with
                | .error _ => true
                | .ok _ => false)
            else false)
          | .error _ => true }
    else
      { audioInvocations := 1, removeAttempted := false,
        audioFileExists := env.failLeavesFile, failed := true }

/-! ## Claim C3 -/

/-- C3: the context passed to the translator never includes the text of
segment i itself, even with duplicate segments.  The code filters the window
with transcript_entries.index(e) != i, and list.index returns the first
index of an equal element: with two equal entries at positions 0 and 1, the
entry at position 1 has index 0, so its own text is kept in its context.
The code produces "A A" for segment 1 while the position-based exclusion the
claim describes produces "A". -/
theorem c3_duplicate_self_context :
    contextFor [⟨"A", 0, 3⟩, ⟨"A", 0, 3⟩] 1 = "A A" ∧
    specContext [⟨"A", 0, 3⟩, ⟨"A", 0, 3⟩] 1 = "A" := by
  constructor
  · rfl
  · rfl

/-! ## Claim C4 -/

/-- C4 counterexample: the claim asserts format(3661.234) = "01:01:01,234",
but the binary64 double nearest to the literal 3661.234 is
8051138710017671 / 2^41, slightly below 3661.234, and int() truncation of
its millisecond part yields 233. -/
theorem c4_counterexample :
    toDouble (mkRat 3661234 1000) = mkRat 8051138710017671 2199023255552 ∧
    format_time (toDouble (mkRat 3661234 1000)) = "01:01:01,233" ∧
    format_time (toDouble (mkRat 3661234 1000)) ≠ "01:01:01,234" := by
  refine ⟨by decide, by decide, by decide⟩

/-- C4 amended: the timestamp formatter, applied to the binary64 value of
each Python literal, satisfies format(0) = "00:00:00,000",
format(3661.234) = "01:01:01,233" (the double nearest 3661.234 lies just
below it and milliseconds are truncated, not rounded),
format(59.9995) = "00:00:59,999" (truncation, not rounding, of the
millisecond part), and hours render unbounded above 24 in the
HH:MM:SS,mmm shape (25 and 100 hour examples). -/
theorem c4_format_time_values :
    format_time (toDouble 0) = "00:00:00,000" ∧
    format_time (toDouble (mkRat 3661234 1000)) = "01:01:01,233" ∧
    format_time (toDouble (mkRat 599995 10000)) = "00:00:59,999" ∧
    format_time (toDouble (mkRat 90000 1)) = "25:00:00,000" ∧
    format_time (toDouble (mkRat 360000 1)) = "100:00:00,000" := by
  refine ⟨by decide, by decide, by decide, by decide, by decide⟩

/-! ## Whitespace-normalization lemmas for the translator -/

/-- Tokens produced by the Python splitter are nonempty and free of
whitespace characters, provided the accumulator already is. -/
theorem splitWsAux_tokens (l : List Char) : ∀ (acc : List Char),
    (∀ c ∈ acc, pyIsSpace c = false) →
    ∀ t ∈ splitWsAux l acc, t ≠ [] ∧ ∀ c ∈ t, pyIsSpace c = false := by
  induction l with
  | nil =>
    intro acc hacc t ht
    by_cases h : acc = []
    · simp [splitWsAux, h] at ht
    · simp only [splitWsAux, if_neg h, List.mem_singleton] at ht
      subst ht
      refine ⟨by simpa using h, ?_⟩
      intro c hc
      exact hacc c (List.mem_reverse.mp hc)
  | cons c rest ih =>
    intro acc hacc t ht
    by_cases hsp : pyIsSpace c = true
    · by_cases h : acc = []
      · simp only [splitWsAux, hsp, if_true, h, if_pos] at ht
        exact ih [] (by simp) t ht
      · simp only [splitWsAux, hsp, if_true, if_neg h, List.mem_cons] at ht
        rcases ht with rfl | ht
        · exact ⟨by simpa using h, fun x hx => hacc x (List.mem_reverse.mp hx)⟩
        · exact ih [] (by simp) t ht
    · simp only [splitWsAux, hsp, if_false] at ht
      refine ih (c :: acc) ?_ t ht
      intro x hx
      rcases List.mem_cons.mp hx with rfl | hx
      · simpa using hsp
      · exact hacc x hx

/-- A nonempty whitespace-free token passes through the scanner, leaving it
in the after-non-space state. -/
theorem wsScan_clean (t : List Char) (hc : ∀ c ∈ t, pyIsSpace c = false) (hne : t ≠ [])
    (b : Bool) (rest : List Char) : wsScan b (t ++ rest) = wsScan false rest := by
  induction t generalizing b with
  | nil => exact absurd rfl hne
  | cons c cs ih =>
    have hcs : pyIsSpace c = false := hc c (List.mem_cons_self c cs)
    cases cs with
    | nil => simp [wsScan, hcs]
    | cons d ds =>
      simp only [List.cons_append, wsScan, hcs]
      simp only [Bool.false_eq_true, if_false]
      exact ih (fun x hx => hc x (List.mem_cons_of_mem c hx)) (by simp) false

/-- Joining nonempty whitespace-free tokens with single spaces yields a
whitespace-normalized result. -/
theorem joinTok_normalized (ts : List (List Char))
    (h : ∀ t ∈ ts, t ≠ [] ∧ ∀ c ∈ t, pyIsSpace c = false) :
    joinTok ts = [] ∨ wsScan true (joinTok ts) = true := by
  induction ts with
  | nil => exact Or.inl rfl
  | cons t rest ih =>
    right
    obtain ⟨hne, hcl⟩ := h t (List.mem_cons_self t rest)
    cases rest with
    | nil =>
      have := wsScan_clean t hcl hne true []
      simpa [joinTok, wsScan] using this
    | cons t2 r =>
      have step : joinTok (t :: t2 :: r) = t ++ ' ' :: joinTok (t2 :: r) := rfl
      rw [step, wsScan_clean t hcl hne true _]
      have hsp : pyIsSpace ' ' = true := by decide
      simp only [wsScan, hsp, if_true, Bool.not_false, Bool.true_and, beq_self_eq_true]
      rcases ih (fun x hx => h x (List.mem_cons_of_mem t hx)) with h0 | h1
      · exfalso
        obtain ⟨hne2, _⟩ := h t2 (List.mem_cons_of_mem t (List.mem_cons_self t2 r))
        cases r with
        | nil =>
          simp only [joinTok] at h0
          exact hne2 h0
        | cons u us => simp [joinTok] at h0
      · simpa using h1

/-! ## Claim C7 -/

/-- C7: a translation-provider failure makes translate_text return (not
raise) the sentinel "Translation failed: " followed by the failure reason,
so one failed segment cannot abort the batch, and a successful translation
is returned whitespace-normalized: no leading or trailing whitespace, no two
adjacent whitespace characters, every whitespace character a single
space. -/
theorem c7_translation_failure_policy (text : String) (context : Option String)
    (msg content : String) :
    translate_text (.ok ()) (.error msg) text "fa" context = "Translation failed: " ++ msg ∧
    wsNormalizedB (translate_text (.ok ()) (.ok content) text "fa" context).data = true := by
  constructor
  · rfl
  · have hres : (translate_text (.ok ()) (.ok content) text "fa" context).data
        = joinTok (splitWsAux (pyStrip content).data []) := rfl
    rw [hres]
    have htoks := splitWsAux_tokens (pyStrip content).data [] (by simp)
    rcases joinTok_normalized _ htoks with h0 | h1
    · rw [h0]; rfl
    · rcases hj : joinTok (splitWsAux (pyStrip content).data []) with _ | ⟨a, as⟩
      · rfl
      · show wsScan true (a :: as) = true
        rw [← hj]
        exact h1

/-! ## Claim C10 -/

/-- C10: translate_text is total at its interface (the model is a total
function into String); for any target language other than 'fa' the provider
is never consulted (the result does not depend on the provider outcome) and
the returned sentinel embeds the unsupported-language message verbatim, with
no whitespace normalization applied to it. -/
theorem c10_translate_total (keyImport : Except String Unit)
    (provider1 provider2 : Except String String) (text target : String)
    (context : Option String) (h : target ≠ "fa") :
    translate_text (.ok ()) provider1 text target context
      = "Translation failed: Unsupported target language: " ++ target ∧
    translate_text keyImport provider1 text target context
      = translate_text keyImport provider2 text target context := by
  constructor
  · simp [translate_text, h]
  · cases keyImport with
    | error e => rfl
    | ok u => simp [translate_text, h]

/-- C10 witness at the concrete target "de" with two different provider
outcomes. -/
theorem c10_witness :
    translate_text (.ok ()) (.ok "ignored") "hello" "de" none
      = "Translation failed: Unsupported target language: de" ∧
    translate_text (.ok ()) (.ok "ignored") "hello" "de" none
      = translate_text (.ok ()) (.error "boom") "hello" "de" none :=
  c10_translate_total (.ok ()) (.ok "ignored") (.error "boom") "hello" "de" none (by decide)

/-! ## Claim C6 -/

/-- C6: the speech transcriber makes at most 3 provider attempts; a failure
on attempt 1 or 2 is followed by exactly one counted 1-second pause and a
retry, the third failure propagates that third error to the caller, and any
successful attempt returns the full text together with the provider segments
mapped one-to-one onto (text, start, end) entries. -/
theorem c6_whisper_retry (attempt : Nat → Except String WhisperResp) :
    (whisper_transcribe (.ok ()) attempt).attempts ≤ 3 ∧
    (∀ r, attempt 0 = .ok r →
      whisper_transcribe (.ok ()) attempt
        = { result := .ok (r.text, r.segments.map segToEntry), attempts := 1, sleeps := 0 }) ∧
    (∀ e0 r, attempt 0 = .error e0 → attempt 1 = .ok r →
      whisper_transcribe (.ok ()) attempt
        = { result := .ok (r.text, r.segments.map segToEntry), attempts := 2, sleeps := 1 }) ∧
    (∀ e0 e1 r, attempt 0 = .error e0 → attempt 1 = .error e1 → attempt 2 = .ok r →
      whisper_transcribe (.ok ()) attempt
        = { result := .ok (r.text, r.segments.map segToEntry), attempts := 3, sleeps := 2 }) ∧
    (∀ e0 e1 e2, attempt 0 = .error e0 → attempt 1 = .error e1 → attempt 2 = .error e2 →
      whisper_transcribe (.ok ()) attempt
        = { result := .error e2, attempts := 3, sleeps := 2 }) := by
  refine ⟨?_, ?_, ?_, ?_, ?_⟩
  · rcases h0 : attempt 0 with e0 | r0
    · rcases h1 : attempt 1 with e1 | r1
      · rcases h2 : attempt 2 with e2 | r2 <;> simp [whisper_transcribe, h0, h1, h2]
      · simp [whisper_transcribe, h0, h1]
    · simp [whisper_transcribe, h0]
  · intro r h0
    simp [whisper_transcribe, h0]
  · intro e0 r h0 h1
    simp [whisper_transcribe, h0, h1]
  · intro e0 e1 r h0 h1 h2
    simp [whisper_transcribe, h0, h1, h2]
  · intro e0 e1 e2 h0 h1 h2
    simp [whisper_transcribe, h0, h1, h2]

/-- Environment for the C6 witness: every attempt succeeds with one
segment. -/
def wAttemptW : Nat → Except String WhisperResp :=
  fun _ => .ok { text := "hello", segments := [{ id := 0, start := 0, end_ := 2, text := "hello" }] }

/-- C6 witness: with a first-attempt success the transcriber stops after one
attempt, no pause, and maps the segment to a (text, start, end) entry. -/
theorem c6_witness :
    whisper_transcribe (.ok ()) wAttemptW
      = { result := .ok ("hello", [{ text := "hello", start := some 0, duration := none, end_ := some 2 }]),
          attempts := 1, sleeps := 0 } ∧
    (whisper_transcribe (.ok ()) wAttemptW).attempts ≤ 3 :=
  ⟨(c6_whisper_retry wAttemptW).2.1 _ rfl, (c6_whisper_retry wAttemptW).1⟩

/-! ## Orchestrator lemmas and claims C1, C2 -/

/-- The inner caption block raises exactly when captionBlockRaises says so. -/
theorem captionBlock_isErr (env : OrchEnv) : isErr (captionBlock env) = captionBlockRaises env := by
  unfold captionBlock captionBlockRaises
  rcases hl : env.listT with e | u
  · simp [isErr]
  · rcases hf : env.findT with e2 | u2
    · simp [isErr]
    · rcases hc : env.fetchT with e3 | entries
      · simp [isErr]
      · simp only [isErr, Bool.false_or]
        by_cases ht : env.targetLanguage = "Persian" <;>
          simp only [ht, if_true, if_false, reduceIte] <;>
            cases he : env.emitSubtitle <;>
              simp only [Bool.false_and, Bool.true_and, if_true, if_false, reduceIte,
                Bool.false_eq_true, isErr] <;>
                rcases hs : env.saveCaption with e4 | u4 <;> simp [isErr]

/-- C1 amended: the audio-acquisition-and-transcription path is invoked
exactly once if any exception escapes the inner caption block (a caption
fetch-chain failure, or a subtitle-save failure after a successful caption
fetch), and zero times otherwise.  The trigger is the whole block, not the
caption fetch alone. -/
theorem c1_audio_fallback (env : OrchEnv) :
    (process_transcription env).audioInvocations = cond (captionBlockRaises env) 1 0 := by
  have h := captionBlock_isErr env
  rcases hcb : captionBlock env with e | u
  · rw [hcb] at h
    simp only [isErr] at h
    rw [← h]
    unfold process_transcription
    rw [hcb]
    cases hd : env.downloadOk <;> simp
  · rw [hcb] at h
    simp only [isErr] at h
    rw [← h]
    unfold process_transcription
    rw [hcb]
    rfl

/-- Environment refuting C1 as stated: the caption fetch chain succeeds, the
user asked for a subtitle file, and the subtitle save raises. -/
def envC1 : OrchEnv :=
  { targetLanguage := "English", listT := .ok (), findT := .ok (),
    fetchT := .ok [{ text := "hello world", start := 0, duration := 2 }],
    transKey := .ok (), transProvider := fun _ => .ok "x", emitSubtitle := true,
    saveCaption := .error "disk full", downloadOk := true, downloadMsg := "",
    failLeavesFile := false, whisperKey := .ok (),
    whisperAttempt := fun _ => .ok { text := "t", segments := [] },
    saveWhisper := .ok "path", removeOk := true }

/-- C1 counterexample: every step of the caption fetch succeeds, yet the
audio path is invoked (once), because the subtitle-save failure after the
successful fetch is caught by the same except clause that implements the
fallback. -/
theorem c1_counterexample :
    isErr envC1.listT = false ∧ isErr envC1.findT = false ∧ isErr envC1.fetchT = false ∧
    (process_transcription envC1).audioInvocations = 1 := by decide

/-- C2 amended: for a request whose caption block raised (so the audio path
ran), the finally clause attempts the delete exactly on the paths where the
download reported success, and when the delete itself succeeds the transient
audio file does not exist afterwards; when the download fails, no delete is
attempted and a partial file left by the failed downloader run persists. -/
theorem c2_cleanup (env : OrchEnv) (h : captionBlockRaises env = true) :
    (env.downloadOk = true → env.removeOk = true →
      (process_transcription env).removeAttempted = true ∧
      (process_transcription env).audioFileExists = false) ∧
    (env.downloadOk = false →
      (process_transcription env).removeAttempted = false ∧
      (process_transcription env).audioFileExists = env.failLeavesFile) := by
  have hb := captionBlock_isErr env
  rw [h] at hb
  rcases hcb : captionBlock env with e | u
  · unfold process_transcription
    rw [hcb]
    constructor
    · intro hd hr
      simp [hd, hr]
    · intro hd
      simp [hd]
  · rw [hcb] at hb
    simp [isErr] at hb

/-- Environment refuting C2 as stated: no captions, the download fails
partway and leaves a partial audio file behind. -/
def envC2 : OrchEnv :=
  { targetLanguage := "English", listT := .error "no transcript", findT := .ok (),
    fetchT := .ok [], transKey := .ok (), transProvider := fun _ => .ok "x",
    emitSubtitle := true, saveCaption := .ok "p", downloadOk := false,
    downloadMsg := "network error", failLeavesFile := true, whisperKey := .ok (),
    whisperAttempt := fun _ => .ok { text := "t", segments := [] },
    saveWhisper := .ok "p", removeOk := true }

/-- C2 counterexample: the request reached audio acquisition, the download
failed partway leaving a file, and the request ends with the transient audio
file still on disk and no delete attempted, because the cleanup only fires
when audio_file was set, which happens on download success alone. -/
theorem c2_counterexample :
    captionBlockRaises envC2 = true ∧
    (process_transcription envC2).removeAttempted = false ∧
    (process_transcription envC2).audioFileExists = true := by decide

/-- Environment for the C2 witness: caption fetch fails, download succeeds,
delete succeeds. -/
def envC2w : OrchEnv :=
  { targetLanguage := "English", listT := .error "no transcript", findT := .ok (),
    fetchT := .ok [], transKey := .ok (), transProvider := fun _ => .ok "x",
    emitSubtitle := true, saveCaption := .ok "p", downloadOk := true,
    downloadMsg := "", failLeavesFile := false, whisperKey := .ok (),
    whisperAttempt := fun _ => .ok { text := "t", segments := [] },
    saveWhisper := .ok "p", removeOk := true }

/-- C2 witness: on a successful download with a successful delete, the
delete is attempted and the file is gone afterwards. -/
theorem c2_cleanup_witness :
    (process_transcription envC2w).removeAttempted = true ∧
    (process_transcription envC2w).audioFileExists = false :=
  (c2_cleanup envC2w (by decide)).1 rfl rfl

/-! ## Claim C8 -/

/-- Joining blocks that each end in a newline with single newlines equals
joining the cores with blank-line separators and a final newline. -/
theorem joinSepS_blank (l : List (Nat × Entry)) (hne : l ≠ []) :
    joinSepS "\n" (l.map (fun p => srtEntry p.1 p.2))
      = joinSepS "\n\n" (l.map (fun p => srtCore p.1 p.2)) ++ "\n" := by
  induction l with
  | nil => exact absurd rfl hne
  | cons p rest ih =>
    cases rest with
    | nil => rfl
    | cons q r =>
      have hstep : joinSepS "\n" ((p :: q :: r).map (fun p => srtEntry p.1 p.2))
          = srtEntry p.1 p.2 ++ "\n" ++ joinSepS "\n" ((q :: r).map (fun p => srtEntry p.1 p.2)) := rfl
      have hstep2 : joinSepS "\n\n" ((p :: q :: r).map (fun p => srtCore p.1 p.2))
          = srtCore p.1 p.2 ++ "\n\n" ++ joinSepS "\n\n" ((q :: r).map (fun p => srtCore p.1 p.2)) := rfl
      rw [hstep, ih (by simp), hstep2]
      have hnn : "\n\n" = "\n" ++ "\n" := by decide
      simp only [srtEntry, hnn, String.append_assoc]

/-- C8: for N input segments the formatter emits exactly N blocks, the block
at index j carries the sequence number j+1 (consecutive numbering from 1
with no gaps, whatever the segment timings), the blocks are separated by a
blank line (each block ends in a newline and blocks are joined by one more
newline, equivalently the whole output is the cores joined by blank lines
plus a trailing newline), and a missing end timestamp defaults to
start + duration with duration defaulting to 3 seconds. -/
theorem c8_srt_structure (entries : List Entry) :
    ((List.enumFrom 1 entries).map (fun p => srtEntry p.1 p.2)).length = entries.length ∧
    (∀ j e, entries[j]? = some e →
      ((List.enumFrom 1 entries).map (fun p => srtEntry p.1 p.2))[j]? = some (srtEntry (j + 1) e)) ∧
    (entries = [] → create_srt_content entries = "") ∧
    (entries ≠ [] → create_srt_content entries
      = joinSepS "\n\n" ((List.enumFrom 1 entries).map (fun p => srtCore p.1 p.2)) ++ "\n") ∧
    (∀ i e, e.end_ = none →
      srtEntry i e = toString i ++ "\n" ++ format_time (e.start.getD 0) ++ " --> "
        ++ format_time (qadd (e.start.getD 0) (e.duration.getD 3)) ++ "\n" ++ e.text ++ "\n") := by
  refine ⟨?_, ?_, ?_, ?_, ?_⟩
  · simp
  · intro j e hj
    rw [List.getElem?_map, List.getElem?_enumFrom, hj]
    simp [Nat.add_comm 1 j]
  · intro h
    subst h
    rfl
  · intro hne
    unfold create_srt_content
    apply joinSepS_blank
    cases entries with
    | nil => exact absurd rfl hne
    | cons a l => simp
  · intro i e h
    simp [srtEntry, srtCore, h]

/-- Entries for the C8 witness. -/
def entsW : List Entry :=
  [{ text := "one", start := some 0, duration := none, end_ := some 2 },
   { text := "two", start := some 2, duration := none, end_ := some 4 }]

/-- C8 witness at two concrete entries: two blocks, the second numbered 2,
and the blank-line shape of the full output. -/
theorem c8_witness :
    ((List.enumFrom 1 entsW).map (fun p => srtEntry p.1 p.2)).length = entsW.length ∧
    ((List.enumFrom 1 entsW).map (fun p => srtEntry p.1 p.2))[1]?
      = some (srtEntry 2 { text := "two", start := some 2, duration := none, end_ := some 4 }) ∧
    create_srt_content entsW
      = joinSepS "\n\n" ((List.enumFrom 1 entsW).map (fun p => srtCore p.1 p.2)) ++ "\n" :=
  ⟨(c8_srt_structure entsW).1,
   (c8_srt_structure entsW).2.1 1 _ rfl,
   (c8_srt_structure entsW).2.2.2.1 (by simp [entsW])⟩

/-! ## Search lemmas for get_video_id -/

/-- A list of identifier characters of the right length is consumed whole. -/
theorem takeId_full (id : List Char) (h1 : id.length = 11) (h2 : id.all isIdChar = true) :
    takeId 11 id = some (id, []) := by
  have key : ∀ n (l : List Char), l.length = n → l.all isIdChar = true →
      takeId n l = some (l, []) := by
    intro n
    induction n with
    | zero =>
      intro l hl _
      cases l with
      | nil => rfl
      | cons c cs => simp at hl
    | succ k ih =>
      intro l hl ha
      cases l with
      | nil => simp at hl
      | cons c cs =>
        simp only [List.all_cons, Bool.and_eq_true] at ha
        simp only [List.length_cons, Nat.succ.injEq] at hl
        simp [takeId, ha.1, ih cs hl ha.2]
  exact key 11 id h1 h2

/-- What a successful takeId run guarantees about the captured group. -/
theorem takeId_sound (n : Nat) : ∀ (l g r : List Char), takeId n l = some (g, r) →
    g.length = n ∧ g.all isIdChar = true ∧ l = g ++ r := by
  induction n with
  | zero =>
    intro l g r h
    simp only [takeId, Option.some.injEq, Prod.mk.injEq] at h
    obtain ⟨h1, h2⟩ := h
    subst h1
    subst h2
    exact ⟨rfl, rfl, rfl⟩
  | succ k ih =>
    intro l g r h
    cases l with
    | nil => simp [takeId] at h
    | cons c cs =>
      simp only [takeId] at h
      by_cases hc : isIdChar c = true
      · rw [if_pos hc] at h
        cases htk : takeId k cs with
        | none => rw [htk] at h; simp at h
        | some pr =>
          rw [htk] at h
          obtain ⟨g', r'⟩ := pr
          simp only [Option.some.injEq, Prod.mk.injEq] at h
          obtain ⟨hg, hr⟩ := h
          subst hg
          subst hr
          obtain ⟨hl, ha, happ⟩ := ih cs g' r' htk
          refine ⟨by simp [hl], ?_, by simp [happ]⟩
          simp [List.all_cons, hc, ha]
      · rw [if_neg hc] at h
        exact absurd h (by simp)

/-- A group captured by tokMatch is an eleven-character identifier. -/
theorem tokMatch_group {tok t g : List Char} (h : tokMatch tok t = some g) :
    g.length = 11 ∧ g.all isIdChar = true := by
  unfold tokMatch at h
  by_cases hc : t.take tok.length = tok
  · rw [if_pos hc] at h
    rcases Option.map_eq_some'.mp h with ⟨⟨g', r⟩, htk, hg⟩
    cases hg
    obtain ⟨hl, ha, _⟩ := takeId_sound 11 _ g' r htk
    exact ⟨hl, ha⟩
  · rw [if_neg hc] at h
    exact absurd h (by simp)

/-- A group captured by pattern 1 is an eleven-character identifier. -/
theorem match1_group (t g : List Char) (h : match1 t = some g) :
    g.length = 11 ∧ g.all isIdChar = true := by
  unfold match1 at h
  cases hv : tokMatch "v=".data t with
  | some g' =>
    rw [hv] at h
    simp only [Option.some.injEq] at h
    subst h
    exact tokMatch_group hv
  | none =>
    rw [hv] at h
    exact tokMatch_group h

/-- A successful search exhibits a suffix position where the matcher fired. -/
theorem reSearch_some (m : List Char → Option (List Char)) (l : List Char) (g : List Char)
    (h : reSearch m l = some g) : ∃ t, t <:+ l ∧ m t = some g := by
  induction l with
  | nil => exact ⟨[], List.suffix_refl [], h⟩
  | cons c cs ih =>
    cases hm : m (c :: cs) with
    | some g' =>
      have hr : reSearch m (c :: cs) = some g' := by simp only [reSearch, hm]
      rw [hr] at h
      injection h with h'
      subst h'
      exact ⟨c :: cs, List.suffix_refl _, hm⟩
    | none =>
      have hstep : reSearch m (c :: cs) = reSearch m cs := by simp only [reSearch, hm]
      rw [hstep] at h
      obtain ⟨t, hsuf, hmt⟩ := ih h
      exact ⟨t, hsuf.trans (List.suffix_cons c cs), hmt⟩

/-- If the matcher fires at some suffix, the search succeeds. -/
theorem reSearch_isSome_of (m : List Char → Option (List Char)) {t l : List Char}
    (hsuf : t <:+ l) (h : (m t).isSome = true) : (reSearch m l).isSome = true := by
  induction l with
  | nil =>
    have ht := List.suffix_nil.mp hsuf
    subst ht
    exact h
  | cons c cs ih =>
    obtain ⟨pre, hpre⟩ := hsuf
    cases pre with
    | nil =>
      simp only [List.nil_append] at hpre
      subst hpre
      cases hm : m (c :: cs) with
      | some g => simp [reSearch, hm]
      | none => rw [hm] at h; simp at h
    | cons p ps =>
      injection hpre with h1 h2
      cases hm : m (c :: cs) with
      | some g => simp [reSearch, hm]
      | none =>
        have := ih ⟨ps, h2⟩
        simpa [reSearch, hm] using this

/-- When the token ends in a slash, any tokMatch hit yields a hit of the
bare slash token at a suffix. -/
theorem tokMatch_slash_of (pre : List Char) (t g : List Char)
    (h : tokMatch (pre ++ "/".data) t = some g) :
    ∃ u, u <:+ t ∧ tokMatch "/".data u = some g := by
  unfold tokMatch at h
  by_cases hc : t.take (pre ++ "/".data).length = pre ++ "/".data
  · rw [if_pos hc] at h
    refine ⟨'/' :: t.drop (pre ++ "/".data).length, ⟨pre, ?_⟩, ?_⟩
    · conv_rhs => rw [← List.take_append_drop (pre ++ "/".data).length t]
      rw [hc]
      simp
    · have heq : tokMatch "/".data ('/' :: t.drop (pre ++ "/".data).length)
          = (takeId 11 (t.drop (pre ++ "/".data).length)).map Prod.fst := rfl
      rw [heq]
      exact h
  · rw [if_neg hc] at h
    exact absurd h (by simp)

/-! ## Claim C9 -/

/-- C9: whenever get_video_id returns an identifier, that identifier has
exactly 11 characters, each drawn from [0-9A-Za-z_-], for every input
string: every returned group is captured by the eleven-character class
consumption of one of the four patterns. -/
theorem c9_extracted_id_shape (url idStr : String) (h : get_video_id url = some idStr) :
    idStr.length = 11 ∧ idStr.data.all isIdChar = true := by
  unfold get_video_id at h
  cases h1 : reSearch match1 url.data with
  | some g =>
    simp only [h1, Option.some.injEq] at h
    subst h
    obtain ⟨t, _, hmt⟩ := reSearch_some match1 url.data g h1
    exact match1_group t g hmt
  | none =>
    simp only [h1] at h
    cases h2 : reSearch match2 url.data with
    | some g =>
      simp only [h2, Option.some.injEq] at h
      subst h
      obtain ⟨t, _, hmt⟩ := reSearch_some match2 url.data g h2
      unfold match2 at hmt
      exact tokMatch_group hmt
    | none =>
      simp only [h2] at h
      cases h3 : reSearch match3 url.data with
      | some g =>
        simp only [h3, Option.some.injEq] at h
        subst h
        obtain ⟨t, _, hmt⟩ := reSearch_some match3 url.data g h3
        unfold match3 at hmt
        exact tokMatch_group hmt
      | none =>
        simp only [h3] at h
        cases h4 : reSearch match4 url.data with
        | some g =>
          simp only [h4, Option.some.injEq] at h
          subst h
          obtain ⟨t, _, hmt⟩ := reSearch_some match4 url.data g h4
          unfold match4 at hmt
          exact tokMatch_group hmt
        | none =>
          simp only [h4] at h
          exact absurd h (by simp)

/-- C9 witness at a concrete short-link URL. -/
theorem c9_witness :
    ("dQw4w9WgXcQ" : String).length = 11 ∧ ("dQw4w9WgXcQ" : String).data.all isIdChar = true :=
  c9_extracted_id_shape "https://youtu.be/dQw4w9WgXcQ" "dQw4w9WgXcQ" (by decide)

/-! ## Claim C5 -/

/-- C5 amended: for each of the four URL shapes around an 11-character id
over [0-9A-Za-z_-], get_video_id returns exactly that id; and for every
input string containing no occurrence of "v=" and no occurrence of "/"
immediately followed by eleven identifier characters, get_video_id returns
none.  (Pattern 1 is broader than the four named shapes: any "v=" or "/"
followed by an eleven-character identifier matches, which is why the
no-match condition must be stated in these terms rather than as absence of
the four shapes.)  The function is pure; no network access exists in the
model. -/
theorem c5_extraction (id : List Char) (h1 : id.length = 11) (h2 : id.all isIdChar = true)
    (s : String) (hv : containsTokId "v=".data s = false)
    (hs : containsTokId "/".data s = false) :
    get_video_id (watchURL id) = some (String.mk id) ∧
    get_video_id (shortURL id) = some (String.mk id) ∧
    get_video_id (embedURL id) = some (String.mk id) ∧
    get_video_id (shortsURL id) = some (String.mk id) ∧
    get_video_id s = none := by
  have htake : takeId 11 id = some (id, []) := takeId_full id h1 h2
  have hmv : match1 ('v' :: '=' :: id) = some id := by
    have e1 : match1 ('v' :: '=' :: id)
        = match (takeId 11 id).map Prod.fst with
          | some g => some g
          | none => tokMatch "/".data ('v' :: '=' :: id) := rfl
    rw [e1, htake]
    rfl
  have hms : match1 ('/' :: id) = some id := by
    have e1 : match1 ('/' :: id) = (takeId 11 id).map Prod.fst := rfl
    rw [e1, htake]
    rfl
  refine ⟨?_, ?_, ?_, ?_, ?_⟩
  · have key : reSearch match1 (watchURL id).data
        = match match1 ('v' :: '=' :: id) with
          | some g => some g
          | none => reSearch match1 id := rfl
    unfold get_video_id
    rw [key, hmv]
  · have key : reSearch match1 (shortURL id).data
        = match match1 ('/' :: id) with
          | some g => some g
          | none => reSearch match1 id := rfl
    unfold get_video_id
    rw [key, hms]
  · have key : reSearch match1 (embedURL id).data
        = match match1 ('/' :: id) with
          | some g => some g
          | none => reSearch match1 id := rfl
    unfold get_video_id
    rw [key, hms]
  · have key : reSearch match1 (shortsURL id).data
        = match match1 ('/' :: id) with
          | some g => some g
          | none => reSearch match1 id := rfl
    unfold get_video_id
    rw [key, hms]
  · have noTok : ∀ tok : List Char, containsTokId tok s = false →
        reSearch (tokMatch tok) s.data = none := by
      intro tok hcf
      cases hm : reSearch (tokMatch tok) s.data with
      | none => rfl
      | some g =>
        unfold containsTokId at hcf
        rw [hm] at hcf
        simp at hcf
    have hvnone := noTok "v=".data hv
    have hsnone := noTok "/".data hs
    have hsome : ∀ (m : List Char → Option (List Char)),
        (∀ t g, m t = some g → ∃ u, u <:+ t ∧
          (tokMatch "v=".data u = some g ∨ tokMatch "/".data u = some g)) →
        reSearch m s.data = none := by
      intro m hred
      cases hm : reSearch m s.data with
      | none => rfl
      | some g =>
        exfalso
        obtain ⟨t, hsuf, hmt⟩ := reSearch_some m s.data g hm
        obtain ⟨u, husuf, hcase⟩ := hred t g hmt
        rcases hcase with hu | hu
        · have hx : (reSearch (tokMatch "v=".data) s.data).isSome = true :=
            reSearch_isSome_of _ (husuf.trans hsuf) (by rw [hu]; rfl)
          rw [hvnone] at hx
          simp at hx
        · have hx : (reSearch (tokMatch "/".data) s.data).isSome = true :=
            reSearch_isSome_of _ (husuf.trans hsuf) (by rw [hu]; rfl)
          rw [hsnone] at hx
          simp at hx
    have m1 : reSearch match1 s.data = none := by
      apply hsome
      intro t g hmt
      unfold match1 at hmt
      cases hvv : tokMatch "v=".data t with
      | some g' =>
        rw [hvv] at hmt
        simp only [Option.some.injEq] at hmt
        subst hmt
        exact ⟨t, List.suffix_refl t, Or.inl hvv⟩
      | none =>
        rw [hvv] at hmt
        exact ⟨t, List.suffix_refl t, Or.inr hmt⟩
    have m2 : reSearch match2 s.data = none := by
      apply hsome
      intro t g hmt
      unfold match2 at hmt
      obtain ⟨u, husuf, hu⟩ := tokMatch_slash_of "youtu.be".data t g hmt
      exact ⟨u, husuf, Or.inr hu⟩
    have m3 : reSearch match3 s.data = none := by
      apply hsome
      intro t g hmt
      unfold match3 at hmt
      obtain ⟨u, husuf, hu⟩ := tokMatch_slash_of "embed".data t g hmt
      exact ⟨u, husuf, Or.inr hu⟩
    have m4 : reSearch match4 s.data = none := by
      apply hsome
      intro t g hmt
      unfold match4 at hmt
      obtain ⟨u, husuf, hu⟩ := tokMatch_slash_of "shorts".data t g hmt
      exact ⟨u, husuf, Or.inr hu⟩
    unfold get_video_id
    simp only [m1, m2, m3, m4]

/-- C5 counterexample: "a/bcdefghijkl" contains none of the four URL shapes
(no "watch?v=", "youtu.be/", "embed/" or "shorts/" followed by an id), yet
get_video_id returns "bcdefghijkl" rather than the not-found result, because
pattern 1 accepts any "/" followed by eleven identifier characters. -/
theorem c5_counterexample :
    get_video_id "a/bcdefghijkl" = some "bcdefghijkl" ∧
    containsTokId "watch?v=".data "a/bcdefghijkl" = false ∧
    containsTokId "youtu.be/".data "a/bcdefghijkl" = false ∧
    containsTokId "embed/".data "a/bcdefghijkl" = false ∧
    containsTokId "shorts/".data "a/bcdefghijkl" = false := by
  refine ⟨by decide, by decide, by decide, by decide, by decide⟩

/-- C5 witness at the id dQw4w9WgXcQ and the matchless string
"hello world". -/
theorem c5_witness :
    get_video_id (watchURL "dQw4w9WgXcQ".data) = some (String.mk "dQw4w9WgXcQ".data) ∧
    get_video_id (shortURL "dQw4w9WgXcQ".data) = some (String.mk "dQw4w9WgXcQ".data) ∧
    get_video_id (embedURL "dQw4w9WgXcQ".data) = some (String.mk "dQw4w9WgXcQ".data) ∧
    get_video_id (shortsURL "dQw4w9WgXcQ".data) = some (String.mk "dQw4w9WgXcQ".data) ∧
    get_video_id "hello world" = none :=
  c5_extraction "dQw4w9WgXcQ".data (by decide) (by decide) "hello world" (by decide) (by decide)

/-- C1 witness: the fallback-trigger equation evaluated at the concrete
environment envC1. -/
theorem c1_witness :
    (process_transcription envC1).audioInvocations = cond (captionBlockRaises envC1) 1 0 :=
  c1_audio_fallback envC1

/-- C7 witness at a concrete failure reason and a concrete sloppy provider
answer. -/
theorem c7_witness :
    translate_text (.ok ()) (.error "boom") "hi" "fa" none = "Translation failed: boom" ∧
    wsNormalizedB (translate_text (.ok ()) (.ok "  a   b ") "hi" "fa" none).data = true :=
  c7_translation_failure_policy "hi" none "boom" "  a   b "
